import Mathlib

/-!
Verification of the mapflow geospatial publishing server against its
natural-language specification.  The definitions below are a shallow
embedding of the Rust backend (directory `src/backend/src`): strings are
`List Char`, SQL statements act on explicit catalog states, fallible code
returns `Except`, and external effects (the bcrypt library, the SQL
engine executing a tile query) are passed in as explicit inputs.
-/

namespace Mapflow

/-! ## ASCII character helpers (Rust `char` methods)

These mirror `char::is_ascii_uppercase`, `is_ascii_lowercase`,
`is_ascii_digit`, `is_ascii_alphabetic`, `is_ascii_alphanumeric` and
`to_ascii_lowercase`.  ASCII codes: A=65, Z=90, a=97, z=122, 0=48, 9=57,
underscore=95. -/

def isAsciiUppercase (c : Char) : Bool := 65 ≤ c.toNat && c.toNat ≤ 90

def isAsciiLowercase (c : Char) : Bool := 97 ≤ c.toNat && c.toNat ≤ 122

def isAsciiDigit (c : Char) : Bool := 48 ≤ c.toNat && c.toNat ≤ 57

def isAsciiAlphabetic (c : Char) : Bool := isAsciiUppercase c || isAsciiLowercase c

def isAsciiAlphanumeric (c : Char) : Bool := isAsciiAlphabetic c || isAsciiDigit c

def toAsciiLowercase (c : Char) : Char :=
  if isAsciiUppercase c then Char.ofNat (c.toNat + 32) else c

/-- Rust `str::trim` trims `char::is_whitespace` characters from both ends.
Lean `Char.isWhitespace` covers the ASCII whitespace characters; whitespace
beyond those is immaterial to every property proved below, because any such
character is replaced by an underscore and then trimmed by the normalizer. -/
def isRustWhitespace (c : Char) : Bool := c.isWhitespace

/-- Remove the longest suffix of characters satisfying `p`
(the suffix half of Rust `str::trim` / `str::trim_matches`). -/
def dropTrailingWhile (p : Char → Bool) : List Char → List Char
  | [] => []
  | c :: rest =>
    match dropTrailingWhile p rest with
    | [] => if p c then [] else [c]
    | r => c :: r

/-- Rust `str::trim`: whitespace removed from both ends. -/
def rustTrim (l : List Char) : List Char :=
  dropTrailingWhile isRustWhitespace (l.dropWhile isRustWhitespace)

/-- Rust `str::trim_matches('_')`: underscores removed from both ends. -/
def trimUnderscores (l : List Char) : List Char :=
  dropTrailingWhile (fun c => c == '_') (l.dropWhile (fun c => c == '_'))

/-- Fixpoint of the loop `while out.contains("__") { out = out.replace("__", "_") }`
in `normalize_column_name` (src/backend/src/import.rs): every maximal run of
underscores collapses to a single underscore. -/
def collapseUnderscores : List Char → List Char
  | [] => []
  | [c] => [c]
  | a :: b :: rest =>
    if a == '_' && b == '_' then collapseUnderscores (b :: rest)
    else a :: collapseUnderscores (b :: rest)

/-- Body of the character loop in `normalize_column_name`: ASCII alphanumerics
and underscore are kept (lowercased), every other character becomes an
underscore. -/
def normalizeChar (c : Char) : Char :=
  if isAsciiAlphanumeric c || c == '_' then toAsciiLowercase c else '_'

/-- The reserved-word list `KEYWORDS` of `normalize_column_name`. -/
def RESERVED_KEYWORDS : List (List Char) :=
  ["select".toList, "from".toList, "where".toList, "group".toList, "order".toList,
   "by".toList, "limit".toList, "offset".toList, "join".toList, "table".toList]

/-- The characters of the `col_` prefix. -/
def colPrefix : List Char := ['c', 'o', 'l', '_']

/-- Step `if the first character is not a letter or underscore, prefix col_`
of `normalize_column_name`. -/
def normalizeColumnPrefixed (first : Char) (rest : List Char) : List Char :=
  if isAsciiAlphabetic first || first == '_' then first :: rest
  else colPrefix ++ first :: rest

/-- Step `if the result is a reserved keyword, prefix col_` of
`normalize_column_name`. -/
def normalizeColumnFinish (first : Char) (rest : List Char) : List Char :=
  if RESERVED_KEYWORDS.contains (normalizeColumnPrefixed first rest)
  then colPrefix ++ normalizeColumnPrefixed first rest
  else normalizeColumnPrefixed first rest

/-- Shallow embedding of `normalize_column_name` (src/backend/src/import.rs,
lines 239-280): trim, lowercase, replace non-identifier characters by
underscore, collapse runs of underscores, trim underscores, return `none`
when empty, prefix `col_` when the first character is not a letter or an
underscore or when the result is a reserved keyword. -/
def normalize_column_name (name : List Char) : Option (List Char) :=
  let trimmed := rustTrim name
  if trimmed.isEmpty then none
  else
    match trimUnderscores (collapseUnderscores (trimmed.map normalizeChar)) with
    | [] => none
    | first :: rest => some (normalizeColumnFinish first rest)

/-! ## Properties of identifiers (spec section 4.3.1, P4, L1) -/

/-- A character allowed inside a stored identifier: `[a-z0-9_]`. -/
def isSafeChar (c : Char) : Bool := isAsciiLowercase c || isAsciiDigit c || c == '_'

/-- Boolean match against the regular expression `[a-z_][a-z0-9_]*`. -/
def matchesIdentRegex (l : List Char) : Bool :=
  match l with
  | [] => false
  | c :: rest => (isAsciiLowercase c || c == '_') && rest.all isSafeChar

/-- No two consecutive underscores. -/
def noDoubleUnderscore : List Char → Bool
  | [] => true
  | [_] => true
  | a :: b :: rest => !(a == '_' && b == '_') && noDoubleUnderscore (b :: rest)

/-! ## Password module (src/backend/src/password.rs) -/

def PASSWORD_MIN_LENGTH : Nat := 8

def PASSWORD_MAX_LENGTH : Nat := 128

/-- Error type of the password module.  The hashing and verification errors
are omitted: only complexity validation is modelled here. -/
inductive PasswordError where
  | TooShort
  | TooLong
  | MissingUppercase
  | MissingLowercase
  | MissingDigit
  | MissingSpecial
deriving DecidableEq, Repr

/-- The enumerated symbol set of `validate_password_complexity`, in source
order.  Characters that are awkward as Lean literals are written with
`Char.ofNat`: 123 and 125 are the curly braces, 34 is the double quote,
39 is the single quote, 96 is the backtick. -/
def SPECIAL_CHARS : List Char :=
  ['!', '@', '#', '$', '%', '^', '&', '*', '_', '-', '+', '=', '(', ')',
   '[', ']', Char.ofNat 123, Char.ofNat 125, '|', '\\', ':', ';',
   Char.ofNat 34, Char.ofNat 39, '<', '>', ',', '.', '?', '/', '~', Char.ofNat 96]

/-- Rust `str::len` is the UTF-8 byte length. -/
def utf8Length (l : List Char) : Nat := (l.map Char.utf8Size).sum

/-- Shallow embedding of `validate_password_complexity`
(src/backend/src/password.rs, lines 58-120). -/
def validate_password_complexity (p : List Char) : Except PasswordError Unit :=
  if utf8Length p < PASSWORD_MIN_LENGTH then .error .TooShort
  else if PASSWORD_MAX_LENGTH < utf8Length p then .error .TooLong
  else if !(p.any isAsciiUppercase) then .error .MissingUppercase
  else if !(p.any isAsciiLowercase) then .error .MissingLowercase
  else if !(p.any isAsciiDigit) then .error .MissingDigit
  else if !(p.any (fun c => SPECIAL_CHARS.contains c)) then .error .MissingSpecial
  else .ok ()

/-- Printable ASCII: codes 32 (space) through 126. -/
def isPrintableAscii (c : Char) : Bool := 32 ≤ c.toNat && c.toNat ≤ 126

/-- The acceptance predicate exactly as claim C7 words it: length in [8,128]
and at least one uppercase, lowercase, digit, and printable ASCII
non-alphanumeric character (which includes the space). -/
def claimPasswordAccepted (p : List Char) : Bool :=
  (8 ≤ utf8Length p && utf8Length p ≤ 128) &&
  p.any isAsciiUppercase && p.any isAsciiLowercase && p.any isAsciiDigit &&
  p.any (fun c => isPrintableAscii c && !(isAsciiAlphanumeric c))

/-! ## Catalog data model (files and published_files tables) -/

/-- A row of the `files` table.  Scalar fields that no modelled operation
reads (name, type, size, uploaded_at, path) are omitted. -/
structure FileRec where
  id : String
  status : String
  crs : Option String
  table_name : Option String
  error : Option String
  is_public : Bool
deriving DecidableEq, Repr

/-- A row of the `published_files` table (`published_at` omitted). -/
structure PubReg where
  file_id : String
  slug : String
deriving DecidableEq, Repr

/-- The catalog state touched by the publication flow. -/
structure Catalog where
  files : List FileRec
  published : List PubReg
deriving DecidableEq, Repr

instance {ε α : Type} [DecidableEq ε] [DecidableEq α] : DecidableEq (Except ε α)
  | .error x, .error y =>
    if h : x = y then .isTrue (congrArg Except.error h)
    else .isFalse fun hc => h (Except.error.inj hc)
  | .ok x, .ok y =>
    if h : x = y then .isTrue (congrArg Except.ok h)
    else .isFalse fun hc => h (Except.ok.inj hc)
  | .error _, .ok _ => .isFalse fun hc => Except.noConfusion hc
  | .ok _, .error _ => .isFalse fun hc => Except.noConfusion hc

/-- `SELECT ... FROM files WHERE id = ?` with `id` the primary key: the
first (unique) matching row. -/
def findFile (files : List FileRec) (id : String) : Option FileRec :=
  files.find? (fun f => f.id == id)

/-- `UPDATE files SET is_public = ? WHERE id = ?`. -/
def setPublic (files : List FileRec) (id : String) (b : Bool) : List FileRec :=
  files.map fun f => if f.id == id then { f with is_public := b } else f

/-- The join `published_files pf JOIN files f ON pf.file_id = f.id ...
f.is_public = TRUE` restricted to one file id. -/
def joinIsPublic (files : List FileRec) (fid : String) : Bool :=
  match findFile files fid with
  | some f => f.is_public
  | none => false

/-! ## Reconciler (src/backend/src/db.rs) -/

def PROCESSING_RECONCILIATION_ERROR : String := "Server restarted during processing"

/-- Per-row effect of the reconciliation UPDATE. -/
def reconcileFile (f : FileRec) : FileRec :=
  if f.status = "processing"
  then { f with status := "failed", error := some PROCESSING_RECONCILIATION_ERROR }
  else f

/-- Shallow embedding of `reconcile_processing_files` (src/backend/src/db.rs,
lines 21-29): one statement, `UPDATE files SET status = 'failed', error = ?
WHERE status = 'processing'`. -/
def reconcile_processing_files (files : List FileRec) : List FileRec :=
  files.map reconcileFile

/-! ## HTTP errors and tile coordinates (src/backend/src/http_errors.rs,
src/backend/src/lib.rs) -/

def bad_request (msg : String) : Nat × String := (400, msg)

def internal_error (msg : String) : Nat × String := (500, msg)

def MAX_Z : Int := 22

/-- Shallow embedding of `validate_tile_coords` (src/backend/src/lib.rs,
lines 502-516).  The Rust shift `1_i32 << z` equals `2 ^ z.toNat` exactly on
the guarded range `0 ≤ z ≤ 22`, and every comparison is exact for `i32`
inputs. -/
def validate_tile_coords (z x y : Int) : Except (Nat × String) Unit :=
  if z < 0 ∨ x < 0 ∨ y < 0 ∨ z > MAX_Z then .error (bad_request "Invalid tile coordinates")
  else
    let max_xy : Int := 2 ^ z.toNat
    if x ≥ max_xy ∨ y ≥ max_xy then .error (bad_request "Invalid tile coordinates")
    else .ok ()

/-! ## Tile endpoints (src/backend/src/lib.rs) -/

/-- Outcome of executing the MVT SQL statement on the engine: an execution
error, a result row whose single column is SQL NULL, or a blob. -/
inductive QueryOutcome where
  | qerror (msg : String)
  | qnull
  | qblob (bytes : List Nat)
deriving DecidableEq, Repr

structure TileResponse where
  content_type : String
  cache_control : Option String
  body : List Nat
deriving DecidableEq, Repr

def MVT_CONTENT_TYPE : String := "application/vnd.mapbox-vector-tile"

def PUBLIC_TILE_CACHE_CONTROL : String := "public, max-age=300"

/-- duckdb `conn.query_row(sql, params, |row| row.get::<Vec<u8>>(0))`: an
execution failure is an error, and a SQL NULL in the result column also
fails (the `FromSql` instance for a byte vector rejects `ValueRef::Null`
with `InvalidColumnType`), so the caller cannot tell the two apart. -/
def query_row_blob : QueryOutcome → Except String (List Nat)
  | .qerror e => .error e
  | .qnull => .error "InvalidColumnType"
  | .qblob b => .ok b

/-- Shallow embedding of `get_tile` (src/backend/src/lib.rs, lines 250-339).
The executed query is the oracle input `q`. -/
def get_tile (files : List FileRec) (id : String) (z x y : Int) (q : QueryOutcome) :
    Except (Nat × String) TileResponse :=
  match validate_tile_coords z x y with
  | .error e => .error e
  | .ok () =>
    match findFile files id with
    | none => .error (404, "File not found")
    | some f =>
      match (if f.status == "ready" then f.table_name else none) with
      | none => .error (409, "File is not ready for preview")
      | some _ =>
        match query_row_blob q with
        | .error e => .error (internal_error ("Tile generation failed: " ++ e))
        | .ok bytes =>
          if !bytes.isEmpty then .ok ⟨MVT_CONTENT_TYPE, none, bytes⟩
          else .ok ⟨MVT_CONTENT_TYPE, none, []⟩

/-- Shallow embedding of `get_public_tile` (src/backend/src/lib.rs, lines
965-1048): slug lookup in published_files, then the file row re-checked
with `is_public = TRUE`. -/
def get_public_tile (c : Catalog) (slug : String) (z x y : Int) (q : QueryOutcome) :
    Except (Nat × String) TileResponse :=
  match validate_tile_coords z x y with
  | .error e => .error e
  | .ok () =>
    match c.published.find? (fun r => r.slug == slug) with
    | none => .error (404, "Public tile not found")
    | some reg =>
      match c.files.find? (fun f => f.id == reg.file_id && f.is_public) with
      | none => .error (404, "File not found")
      | some f =>
        match (if f.status == "ready" then f.table_name else none) with
        | none => .error (409, "File is not ready")
        | some _ =>
          match query_row_blob q with
          | .error e => .error (internal_error ("Tile generation failed: " ++ e))
          | .ok bytes =>
            if !bytes.isEmpty then .ok ⟨MVT_CONTENT_TYPE, some PUBLIC_TILE_CACHE_CONTROL, bytes⟩
            else .ok ⟨MVT_CONTENT_TYPE, some PUBLIC_TILE_CACHE_CONTROL, []⟩

/-! ## Publication registry (src/backend/src/lib.rs) -/

def squote : String := String.mk [Char.ofNat 39]

structure PublishResponse where
  url : String
  slug : String
  is_public : Bool
deriving DecidableEq, Repr

def publicUrlTemplate (slug : String) : String :=
  "/tiles/" ++ slug ++ "/\x7bz\x7d/\x7bx\x7d/\x7by\x7d"

def alreadyPublishedMessage : Option String → String
  | some existing =>
    "File already published with slug " ++ squote ++ existing ++ squote ++
      ". Unpublish first to change slug."
  | none => "File already published. Unpublish first to change slug."

/-- Shallow embedding of `validate_slug` (src/backend/src/lib.rs, lines
1050-1069). -/
def validate_slug (slug : String) : Except String String :=
  let t := rustTrim slug.toList
  if t.isEmpty then .error "Slug cannot be empty"
  else if 100 < utf8Length t then .error "Slug must be 100 characters or less"
  else if !(t.all fun c => isAsciiAlphanumeric c || c == '-' || c == '_') then
    .error "Slug can only contain letters, numbers, hyphens, and underscores"
  else .ok (String.mk t)

/-- Shallow embedding of `publish_file` (src/backend/src/lib.rs, lines
728-880).  The transaction is atomic in this single-threaded model: every
error path leaves the catalog unchanged (ROLLBACK), the success path
applies the INSERT and the UPDATE together (COMMIT).  On the INSERT the
engine checks the PRIMARY KEY on file_id and the UNIQUE constraint on
slug; the model checks file_id first, matching the error classification
order of the code. -/
def publish_file (c : Catalog) (id : String) (req_slug : Option String) :
    Except (Nat × String) PublishResponse × Catalog :=
  match findFile c.files id with
  | none => (.error (404, "File not found"), c)
  | some f =>
    if f.status ≠ "ready" then
      (.error (409, "File is not ready for publishing"), c)
    else
      match validate_slug (req_slug.getD id) with
      | .error e => (.error (bad_request e), c)
      | .ok slug =>
        match findFile c.files id with
        | none => (.error (404, "File not found"), c)
        | some f2 =>
          if f2.status ≠ "ready" then
            (.error (409, "File is not ready for publishing (status: " ++ f2.status ++ ")"), c)
          else if c.published.any (fun r => r.file_id == id) then
            (.error (409, alreadyPublishedMessage
              ((c.published.find? (fun r => r.file_id == id)).map (·.slug))), c)
          else if c.published.any (fun r => r.slug == slug) then
            (.error (bad_request "Slug already in use"), c)
          else
            (.ok ⟨publicUrlTemplate slug, slug, true⟩,
             ⟨setPublic c.files id true, c.published ++ [⟨id, slug⟩]⟩)

/-- The exact text of the DELETE statement passed to `conn.execute` by
`unpublish_file` (src/backend/src/lib.rs, lines 896-898). -/
def UNPUBLISH_DELETE_SQL : String :=
  "DELETE FROM published_files pf\n            JOIN files f ON pf.file_id = f.id\n            WHERE pf.file_id = ? AND f.is_public = TRUE"

/-- Whitespace-separated tokens of an SQL statement. -/
def sqlTokens (s : String) : List String :=
  ((s.toList.splitOnP (fun c => c.isWhitespace)).filter (fun t => !t.isEmpty)).map String.mk

/-- The clause keywords that may follow the target relation (and its
optional alias) in DuckDB's DELETE statement grammar, which is the
Postgres-derived `DELETE FROM target [alias] [USING from_list]
[WHERE condition] [RETURNING list]`; a JOIN clause is not part of this
grammar. -/
def deleteClauseKeywords : List String := ["USING", "WHERE", "RETURNING"]

/-- Head-shape check of DuckDB's DELETE grammar: the statement must read
`DELETE FROM target`, optionally followed by an alias token, with nothing
or one of the legal clause keywords coming next.  Clause bodies are not
validated, so this over-approximates the set of DELETE statements DuckDB
accepts: a statement this check rejects is rejected by DuckDB's parser. -/
def duckdbDeleteShape (toks : List String) : Bool :=
  match toks with
  | "DELETE" :: "FROM" :: _ :: rest =>
    match rest with
    | [] => true
    | t :: rest2 =>
      if deleteClauseKeywords.contains t then true
      else
        match rest2 with
        | [] => true
        | u :: _ => deleteClauseKeywords.contains u
  | _ => false

/-- Result of `conn.execute` on the unpublish DELETE statement.  DuckDB
parses the statement text before binding any parameter, and its DELETE
grammar admits no JOIN clause, so the malformed statement is rejected at
parse time and execute returns an error.  Were the statement accepted, it
would delete the registration rows of `id` whose file record is flagged
public and report how many rows were affected. -/
def unpublishDeleteExec (c : Catalog) (id : String) : Except String Nat :=
  if duckdbDeleteShape (sqlTokens UNPUBLISH_DELETE_SQL) then
    .ok (c.published.filter fun r => r.file_id == id && joinIsPublic c.files r.file_id).length
  else .error "Parser Error: syntax error at or near JOIN"

/-- Shallow embedding of `unpublish_file` (src/backend/src/lib.rs, lines
882-933).  BEGIN TRANSACTION; `conn.execute` the DELETE with
`.map_err(internal_error)?`, so a failing execute returns at once with 500
and the catalog unchanged; zero affected rows roll back with 404
NotPublished; otherwise the UPDATE clears is_public and the transaction
commits. -/
def unpublish_file (c : Catalog) (id : String) :
    Except (Nat × String) String × Catalog :=
  match unpublishDeleteExec c id with
  | .error e => (.error (internal_error e), c)
  | .ok rows_affected =>
    if rows_affected = 0 then (.error (404, "File not published"), c)
    else
      (.ok "File unpublished",
       ⟨setPublic c.files id false,
        c.published.filter fun r => !(r.file_id == id && joinIsPublic c.files r.file_id)⟩)

/-! ## Authentication backend (src/backend/src/auth.rs) -/

structure AuthUser where
  id : String
  username : String
  password_hash : String
  role : String
deriving DecidableEq, Repr

inductive AuthError where
  | Database (msg : String)
  | UserNotFound
  | InvalidCredentials
  | PasswordHash (msg : String)
deriving DecidableEq, Repr

def DUMMY_PASSWORD : String := "dummy_password_for_timing_attack"

def FALLBACK_DUMMY_HASH : String :=
  "$2b$12$0000000000000000000000000000000000000000000000000000"

/-- The value the `OnceLock` initializer produces:
`hash_password(DUMMY_PASSWORD).unwrap_or_else(|_| FALLBACK)`. -/
def dummyHashInit (hashPassword : String → Except String String) : String :=
  match hashPassword DUMMY_PASSWORD with
  | .ok h => h
  | .error _ => FALLBACK_DUMMY_HASH

/-- The dummy hash after `DUMMY_HASH.get_or_init(...)` given the cell's
prior contents. -/
def dummyHashOf (hashPassword : String → Except String String)
    (cell : Option String) : String :=
  cell.getD (dummyHashInit hashPassword)

/-- Result of one `authenticate` call: the returned value, the state of the
process-global `DUMMY_HASH` cell after the call, and the list of
`(password, hash)` pairs passed to bcrypt verification during the call. -/
structure AuthOutcome where
  result : Except AuthError (Option AuthUser)
  dummyCell : Option String
  verifyCalls : List (String × String)
deriving DecidableEq, Repr

/-- Shallow embedding of `AuthBackend::authenticate` (src/backend/src/auth.rs,
lines 64-112).  `verify` and `hashPassword` stand for the bcrypt library;
the user lookup is the first row of the username query. -/
def authenticate (verify : String → String → Except String Bool)
    (hashPassword : String → Except String String)
    (users : List AuthUser) (dummyCell : Option String)
    (username password : String) : AuthOutcome :=
  match users.find? (fun u => u.username == username) with
  | some user =>
    match verify password user.password_hash with
    | .ok true => ⟨.ok (some user), dummyCell, [(password, user.password_hash)]⟩
    | .ok false => ⟨.error .InvalidCredentials, dummyCell, [(password, user.password_hash)]⟩
    | .error e => ⟨.error (.PasswordHash e), dummyCell, [(password, user.password_hash)]⟩
  | none =>
    let dummy := dummyCell.getD (dummyHashInit hashPassword)
    ⟨.error .InvalidCredentials, some dummy, [(password, dummy)]⟩

/-! ## Import column processing (src/backend/src/import.rs, lines 138-234)

The per-column loop of `import_spatial_data` after the geometry-rename pass:
it runs over the refreshed `information_schema` column list and, per column,
decides a normalized name, renames, coerces the type, and records one
Dataset Column Metadata row, skipping all three for the reserved columns. -/

def colOrdinalName (ordinal : Int) : List Char :=
  colPrefix ++ (toString ordinal).toList

/-- The `while used.contains(&candidate)` suffix loop.  The fuel
`used.length + 1` bounds the loop: the candidates are pairwise distinct, so
at most `used.length` of them can collide. -/
def pickFreshAux (used : List (List Char)) (base : List Char) : Nat → Nat → List Char
  | _, 0 => base
  | suffix, fuel + 1 =>
    let cand := base ++ '_' :: (toString suffix).toList
    if used.contains cand then pickFreshAux used base (suffix + 1) fuel else cand

def pickFresh (used : List (List Char)) (base : List Char) : List Char :=
  if used.contains base then pickFreshAux used base 2 (used.length + 1) else base

/-- A row of the `dataset_columns` table. -/
structure DatasetColumnRow where
  normalized_name : List Char
  original_name : List Char
  ordinal : Int
  mvt_type : String
deriving DecidableEq, Repr

/-- The loop state: the `used` name set plus the emitted ALTER ... RENAME
actions, ALTER ... SET DATA TYPE actions, and dataset_columns INSERTs. -/
structure ImportColumnState where
  used : List (List Char)
  renames : List (List Char × List Char)
  coercions : List (List Char × String)
  metadata : List DatasetColumnRow
deriving DecidableEq, Repr

/-- One iteration of the column loop (import.rs lines 138-234). -/
def process_property_column (st : ImportColumnState) (name : List Char)
    (data_type : String) (ordinal : Int) : ImportColumnState :=
  let lower := name.map toAsciiLowercase
  let is_reserved := lower == "fid".toList || lower == "geom".toList
  let normalized0 :=
    if is_reserved then lower
    else if (name.all fun c => isAsciiAlphanumeric c || c == '_') &&
        ((name.head?.map fun c => isAsciiAlphabetic c || c == '_').getD false) then lower
    else (normalize_column_name name).getD (colOrdinalName ordinal)
  if is_reserved then
    { st with used := normalized0 :: st.used }
  else
    let normalized1 := if normalized0.isEmpty then colOrdinalName ordinal else normalized0
    let candidate := pickFresh st.used normalized1
    let renames :=
      if candidate ≠ lower then st.renames ++ [(name, candidate)] else st.renames
    let step :=
      if data_type = "VARCHAR" ∨ data_type = "BOOLEAN" ∨ data_type = "DOUBLE" ∨
          data_type = "FLOAT" ∨ data_type = "BIGINT" ∨ data_type = "INTEGER" then
        (data_type, st.coercions)
      else if data_type = "SMALLINT" ∨ data_type = "TINYINT" then
        ("INTEGER", st.coercions ++ [(candidate, "INTEGER")])
      else if data_type = "UBIGINT" ∨ data_type = "UINTEGER" ∨
          data_type = "USMALLINT" ∨ data_type = "UTINYINT" then
        ("BIGINT", st.coercions ++ [(candidate, "BIGINT")])
      else ("VARCHAR", st.coercions ++ [(candidate, "VARCHAR")])
    { used := candidate :: st.used,
      renames := renames,
      coercions := step.2,
      metadata := st.metadata ++ [⟨candidate, name, ordinal, step.1⟩] }

/-- The whole loop, starting from `used = {"fid"}` as in the source. -/
def process_property_columns (cols : List (List Char × String × Int)) : ImportColumnState :=
  cols.foldl (fun st col => process_property_column st col.1 col.2.1 col.2.2)
    ⟨["fid".toList], [], [], []⟩

/-- A column name whose ASCII lowercasing is `fid` or `geom`. -/
def isReservedColumnName (name : List Char) : Prop :=
  name.map toAsciiLowercase = "fid".toList ∨ name.map toAsciiLowercase = "geom".toList

theorem charToNat_inj {c d : Char} (h : c.toNat = d.toNat) : c = d :=
  Char.eq_of_val_eq (UInt32.ext (by simpa [UInt32.toNat] using h))

theorem isAsciiUppercase_iff {c : Char} :
    isAsciiUppercase c = true ↔ 65 ≤ c.toNat ∧ c.toNat ≤ 90 := by
  simp [isAsciiUppercase]

theorem isAsciiLowercase_iff {c : Char} :
    isAsciiLowercase c = true ↔ 97 ≤ c.toNat ∧ c.toNat ≤ 122 := by
  simp [isAsciiLowercase]

theorem isAsciiDigit_iff {c : Char} :
    isAsciiDigit c = true ↔ 48 ≤ c.toNat ∧ c.toNat ≤ 57 := by
  simp [isAsciiDigit]

theorem underscore_toNat : ('_' : Char).toNat = 95 := rfl

theorem eq_underscore_iff {c : Char} : (c == '_') = true ↔ c.toNat = 95 := by
  rw [beq_iff_eq]
  constructor
  · intro h; subst h; rfl
  · exact fun h => charToNat_inj h

theorem charOfNat_toNat {n : Nat} (hn : n < 55296) : (Char.ofNat n).toNat = n := by
  have hv : n.isValidChar := Or.inl hn
  simp [Char.ofNat, hv, Char.ofNatAux, Char.toNat, UInt32.toNat, BitVec.toNat_ofNatLt]

theorem toAsciiLowercase_of_upper {c : Char} (h : isAsciiUppercase c = true) :
    isAsciiLowercase (toAsciiLowercase c) = true := by
  rw [isAsciiUppercase_iff] at h
  rw [toAsciiLowercase, if_pos (isAsciiUppercase_iff.mpr h), isAsciiLowercase_iff,
    charOfNat_toNat (by omega)]
  omega

theorem toAsciiLowercase_of_not_upper {c : Char} (h : isAsciiUppercase c = false) :
    toAsciiLowercase c = c := by
  rw [toAsciiLowercase, if_neg]
  simp [h]

theorem eq_underscore_char_iff {c : Char} : c = '_' ↔ c.toNat = 95 := by
  constructor
  · intro h; subst h; rfl
  · exact fun h => charToNat_inj h

theorem isSafeChar_iff {c : Char} :
    isSafeChar c = true ↔
      (97 ≤ c.toNat ∧ c.toNat ≤ 122) ∨ (48 ≤ c.toNat ∧ c.toNat ≤ 57) ∨ c.toNat = 95 := by
  simp [isSafeChar, isAsciiLowercase_iff, isAsciiDigit_iff, eq_underscore_char_iff, or_assoc]

theorem isSafeChar_not_upper {c : Char} (h : isSafeChar c = true) :
    isAsciiUppercase c = false := by
  rw [isSafeChar_iff] at h
  rcases Bool.eq_false_or_eq_true (isAsciiUppercase c) with h2 | h2
  · rw [isAsciiUppercase_iff] at h2; omega
  · exact h2

theorem normalizeChar_safe (c : Char) : isSafeChar (normalizeChar c) = true := by
  rw [normalizeChar]
  by_cases h : (isAsciiAlphanumeric c || c == '_') = true
  · rw [if_pos h]
    rcases Bool.or_eq_true_iff.mp h with h1 | h1
    · rcases Bool.or_eq_true_iff.mp (by simpa [isAsciiAlphanumeric] using h1) with h2 | h2
      · rcases Bool.or_eq_true_iff.mp (by simpa [isAsciiAlphabetic] using h2) with h3 | h3
        · exact isSafeChar_iff.mpr (Or.inl (isAsciiLowercase_iff.mp (toAsciiLowercase_of_upper h3)))
        · rw [toAsciiLowercase_of_not_upper (isSafeChar_not_upper (isSafeChar_iff.mpr (Or.inl (isAsciiLowercase_iff.mp h3))))]
          exact isSafeChar_iff.mpr (Or.inl (isAsciiLowercase_iff.mp h3))
      · rw [toAsciiLowercase_of_not_upper (isSafeChar_not_upper (isSafeChar_iff.mpr (Or.inr (Or.inl (isAsciiDigit_iff.mp h2)))))]
        exact isSafeChar_iff.mpr (Or.inr (Or.inl (isAsciiDigit_iff.mp h2)))
    · have h2 : c.toNat = 95 := eq_underscore_iff.mp h1
      rw [toAsciiLowercase_of_not_upper (isSafeChar_not_upper (isSafeChar_iff.mpr (Or.inr (Or.inr h2))))]
      exact isSafeChar_iff.mpr (Or.inr (Or.inr h2))
  · rw [if_neg h]
    decide

theorem normalizeChar_id {c : Char} (h : isSafeChar c = true) : normalizeChar c = c := by
  have hcond : (isAsciiAlphanumeric c || c == '_') = true := by
    rcases isSafeChar_iff.mp h with h1 | h1 | h1
    · have h2 : isAsciiLowercase c = true := isAsciiLowercase_iff.mpr h1
      simp [isAsciiAlphanumeric, isAsciiAlphabetic, h2]
    · have h2 : isAsciiDigit c = true := isAsciiDigit_iff.mpr h1
      simp [isAsciiAlphanumeric, h2]
    · have hc : c = '_' := charToNat_inj h1
      subst hc; decide
  simp only [normalizeChar, hcond, if_true]
  exact toAsciiLowercase_of_not_upper (isSafeChar_not_upper h)

theorem noDoubleUnderscore_cons {c : Char} {l : List Char} :
    noDoubleUnderscore (c :: l) = true ↔
      ((l.head? = some '_' → c ≠ '_') ∧ noDoubleUnderscore l = true) := by
  cases l with
  | nil => simp [noDoubleUnderscore]
  | cons b rest =>
    simp only [noDoubleUnderscore, List.head?_cons, Bool.and_eq_true, Bool.not_eq_true']
    constructor
    · rintro ⟨h1, h2⟩
      refine ⟨fun hb hc => ?_, h2⟩
      rw [Option.some_inj] at hb
      subst hb; subst hc; simp at h1
    · rintro ⟨h1, h2⟩
      refine ⟨?_, h2⟩
      by_cases hc : c = '_'
      · by_cases hb : b = '_'
        · exact absurd hc (h1 (by rw [hb]))
        · subst hc
          simp [beq_iff_eq, hb]
      · simp [beq_iff_eq, hc]

theorem noDoubleUnderscore_tail {c : Char} {l : List Char}
    (h : noDoubleUnderscore (c :: l) = true) : noDoubleUnderscore l = true :=
  (noDoubleUnderscore_cons.mp h).2

theorem collapseUnderscores_head? (l : List Char) :
    (collapseUnderscores l).head? = l.head? := by
  induction l with
  | nil => rfl
  | cons a rest ih =>
    cases rest with
    | nil => rfl
    | cons b rest2 =>
      rw [collapseUnderscores]
      by_cases hab : (a == '_' && b == '_') = true
      · rw [if_pos hab]
        have ha : a = '_' := beq_iff_eq.mp (Bool.and_eq_true_iff.mp hab).1
        have hb : b = '_' := beq_iff_eq.mp (Bool.and_eq_true_iff.mp hab).2
        rw [ih, List.head?_cons, List.head?_cons, ha, hb]
      · rw [if_neg hab, List.head?_cons, List.head?_cons]

theorem noDoubleUnderscore_collapse (l : List Char) :
    noDoubleUnderscore (collapseUnderscores l) = true := by
  induction l with
  | nil => rfl
  | cons a rest ih =>
    cases rest with
    | nil => rfl
    | cons b rest2 =>
      rw [collapseUnderscores]
      by_cases hab : (a == '_' && b == '_') = true
      · rw [if_pos hab]; exact ih
      · rw [if_neg hab]
        rw [noDoubleUnderscore_cons]
        refine ⟨?_, ih⟩
        intro hh hac
        rw [collapseUnderscores_head?, List.head?_cons, Option.some_inj] at hh
        subst hac; subst hh
        simp at hab

theorem collapseUnderscores_id {l : List Char}
    (h : noDoubleUnderscore l = true) : collapseUnderscores l = l := by
  induction l with
  | nil => rfl
  | cons a rest ih =>
    cases rest with
    | nil => rfl
    | cons b rest2 =>
      rw [collapseUnderscores]
      have hn := noDoubleUnderscore_cons.mp h
      have hab : (a == '_' && b == '_') = true → False := by
        intro hab
        exact hn.1 (by rw [List.head?_cons, (beq_iff_eq.mp (Bool.and_eq_true_iff.mp hab).2)])
          (beq_iff_eq.mp (Bool.and_eq_true_iff.mp hab).1)
      rw [if_neg hab, ih hn.2]

theorem mem_collapseUnderscores {c : Char} {l : List Char}
    (h : c ∈ collapseUnderscores l) : c ∈ l := by
  induction l with
  | nil => exact absurd h (by simp [collapseUnderscores])
  | cons a rest ih =>
    cases rest with
    | nil => exact h
    | cons b rest2 =>
      rw [collapseUnderscores] at h
      by_cases hab : (a == '_' && b == '_') = true
      · rw [if_pos hab] at h
        exact List.mem_cons_of_mem a (ih h)
      · rw [if_neg hab] at h
        rcases List.mem_cons.mp h with h1 | h1
        · exact h1 ▸ List.mem_cons_self a _
        · exact List.mem_cons_of_mem a (ih h1)

theorem mem_dropTrailingWhile {p : Char → Bool} {c : Char} {l : List Char}
    (h : c ∈ dropTrailingWhile p l) : c ∈ l := by
  induction l with
  | nil => exact absurd h (by simp [dropTrailingWhile])
  | cons a rest ih =>
    rw [dropTrailingWhile] at h
    rcases hr : dropTrailingWhile p rest with _ | ⟨r0, rtail⟩
    · rw [hr] at h
      by_cases hp : p a = true
      · rw [if_pos hp] at h; exact absurd h (by simp)
      · rw [if_neg hp] at h
        rcases List.mem_singleton.mp h with h1
        exact h1 ▸ List.mem_cons_self a _
    · rw [hr] at h
      rcases List.mem_cons.mp h with h1 | h1
      · exact h1 ▸ List.mem_cons_self a _
      · exact List.mem_cons_of_mem a (ih (hr ▸ h1))

theorem dropTrailingWhile_head? {p : Char → Bool} {l : List Char} {c : Char}
    (h : (dropTrailingWhile p l).head? = some c) : l.head? = some c := by
  cases l with
  | nil => exact absurd h (by simp [dropTrailingWhile])
  | cons a rest =>
    rw [dropTrailingWhile] at h
    rcases hr : dropTrailingWhile p rest with _ | ⟨r0, rtail⟩
    · rw [hr] at h
      by_cases hp : p a = true
      · rw [if_pos hp] at h; exact absurd h (by simp)
      · rw [if_neg hp] at h
        simpa using h
    · rw [hr] at h
      simpa using h

theorem dropTrailingWhile_getLast? {p : Char → Bool} {l : List Char} {c : Char}
    (h : (dropTrailingWhile p l).getLast? = some c) : p c = false := by
  induction l with
  | nil => exact absurd h (by simp [dropTrailingWhile])
  | cons a rest ih =>
    rw [dropTrailingWhile] at h
    rcases hr : dropTrailingWhile p rest with _ | ⟨r0, rtail⟩
    · rw [hr] at h
      by_cases hp : p a = true
      · rw [if_pos hp] at h; exact absurd h (by simp)
      · rw [if_neg hp] at h
        rw [show a = c from by simpa using h] at hp
        exact Bool.eq_false_iff.mpr hp
    · rw [hr] at h
      rw [List.getLast?_cons_cons] at h
      exact ih (by rw [hr]; exact h)

theorem noDoubleUnderscore_dropTrailingWhile {p : Char → Bool} {l : List Char}
    (h : noDoubleUnderscore l = true) :
    noDoubleUnderscore (dropTrailingWhile p l) = true := by
  induction l with
  | nil => exact h
  | cons a rest ih =>
    rw [dropTrailingWhile]
    rcases hr : dropTrailingWhile p rest with _ | ⟨r0, rtail⟩
    · by_cases hp : p a = true
      · rw [if_pos hp]; rfl
      · rw [if_neg hp]; rfl
    · rw [noDoubleUnderscore_cons]
      have hrec := ih (noDoubleUnderscore_tail h)
      refine ⟨?_, hr ▸ hrec⟩
      intro hh
      have hh2 : rest.head? = some '_' := by
        apply dropTrailingWhile_head?
        rw [hr]; exact hh
      exact (noDoubleUnderscore_cons.mp h).1 hh2

theorem dropTrailingWhile_eq_self {p : Char → Bool} {l : List Char}
    (h : ∀ c, l.getLast? = some c → p c = false) : dropTrailingWhile p l = l := by
  induction l with
  | nil => rfl
  | cons a rest ih =>
    rw [dropTrailingWhile]
    cases rest with
    | nil =>
      rw [show dropTrailingWhile p [] = [] from rfl]
      rw [if_neg]
      rw [h a (by rfl)]
      simp
    | cons b rest2 =>
      have hrest : dropTrailingWhile p (b :: rest2) = b :: rest2 := by
        apply ih
        intro c hc
        exact h c (by rw [List.getLast?_cons_cons]; exact hc)
      rw [hrest]

theorem dropWhile_head?_not {p : Char → Bool} {l : List Char} {c : Char}
    (h : (l.dropWhile p).head? = some c) : p c = false := by
  induction l with
  | nil => exact absurd h (by simp)
  | cons a rest ih =>
    rw [List.dropWhile_cons] at h
    by_cases hp : p a = true
    · rw [if_pos hp] at h; exact ih h
    · rw [if_neg hp] at h
      rw [show a = c from by simpa using h] at hp
      exact Bool.eq_false_iff.mpr hp

theorem noDoubleUnderscore_dropWhile {p : Char → Bool} {l : List Char}
    (h : noDoubleUnderscore l = true) : noDoubleUnderscore (l.dropWhile p) = true := by
  induction l with
  | nil => exact h
  | cons a rest ih =>
    rw [List.dropWhile_cons]
    by_cases hp : p a = true
    · rw [if_pos hp]; exact ih (noDoubleUnderscore_tail h)
    · rw [if_neg hp]; exact h

theorem dropWhile_eq_self {p : Char → Bool} {l : List Char}
    (h : ∀ c, l.head? = some c → p c = false) : l.dropWhile p = l := by
  cases l with
  | nil => rfl
  | cons a rest =>
    rw [List.dropWhile_cons, if_neg]
    rw [h a (by rfl)]
    simp

theorem safeChar_not_whitespace {c : Char} (h : isSafeChar c = true) :
    isRustWhitespace c = false := by
  rcases Bool.eq_false_or_eq_true (isRustWhitespace c) with h2 | h2
  · exfalso
    simp only [isRustWhitespace, Char.isWhitespace, Bool.or_eq_true, decide_eq_true_eq] at h2
    rw [isSafeChar_iff] at h
    rcases h2 with ((h2 | h2) | h2) | h2 <;> (subst h2; exact absurd h (by decide))
  · exact h2

theorem noDouble_colPrefix_append {l : List Char}
    (hh : l.head? = some '_' → False) (hnd : noDoubleUnderscore l = true) :
    noDoubleUnderscore (colPrefix ++ l) = true := by
  show noDoubleUnderscore ('c' :: 'o' :: 'l' :: '_' :: l) = true
  refine noDoubleUnderscore_cons.mpr ⟨?_, ?_⟩
  · intro hx; exact absurd (Option.some_inj.mp hx) (by decide)
  refine noDoubleUnderscore_cons.mpr ⟨?_, ?_⟩
  · intro hx; exact absurd (Option.some_inj.mp hx) (by decide)
  refine noDoubleUnderscore_cons.mpr ⟨?_, ?_⟩
  · intro _; decide
  exact noDoubleUnderscore_cons.mpr ⟨fun hx _ => hh hx, hnd⟩

theorem colPrefix_append_head? (l : List Char) : (colPrefix ++ l).head? = some 'c' := rfl

theorem keywords_head_not_c : ∀ k ∈ RESERVED_KEYWORDS, k.head? ≠ some 'c' := by decide

theorem contains_colPrefix_append_false (l : List Char) :
    RESERVED_KEYWORDS.contains (colPrefix ++ l) = false := by
  rcases Bool.eq_false_or_eq_true (RESERVED_KEYWORDS.contains (colPrefix ++ l)) with h | h
  · exact absurd (colPrefix_append_head? l)
      (keywords_head_not_c _ (List.elem_iff.mp h))
  · exact h

theorem mem_colPrefix_safe : ∀ c ∈ colPrefix, isSafeChar c = true := by decide

/-- Structural facts about every successful output of the identifier
normalizer: nonempty, only `[a-z0-9_]` characters, no doubled underscore,
the first character is a lowercase letter, the last character is not an
underscore, and the output is not a reserved keyword. -/
theorem normalize_column_name_sound {s out : List Char}
    (h : normalize_column_name s = some out) :
    out ≠ [] ∧
    (∀ c ∈ out, isSafeChar c = true) ∧
    noDoubleUnderscore out = true ∧
    (∀ c, out.head? = some c → isAsciiLowercase c = true) ∧
    (∀ c, out.getLast? = some c → c ≠ '_') ∧
    RESERVED_KEYWORDS.contains out = false := by
  unfold normalize_column_name at h
  by_cases he : (rustTrim s).isEmpty = true
  · rw [if_pos he] at h; exact absurd h (by simp)
  rw [if_neg he] at h
  rcases hm : trimUnderscores (collapseUnderscores ((rustTrim s).map normalizeChar))
    with _ | ⟨first, rest⟩
  · rw [hm] at h; exact absurd h (by simp)
  rw [hm] at h
  have hout : normalizeColumnFinish first rest = out := Option.some_inj.mp h
  -- facts about the trimmed, collapsed list first :: rest
  have hmem : ∀ c ∈ first :: rest, isSafeChar c = true := by
    intro c hc
    have hc3 : c ∈ (collapseUnderscores ((rustTrim s).map normalizeChar)).dropWhile
        (fun c => c == '_') :=
      mem_dropTrailingWhile (p := fun c => c == '_') (by
        rw [show dropTrailingWhile (fun c => c == '_')
          ((collapseUnderscores ((rustTrim s).map normalizeChar)).dropWhile (fun c => c == '_')) =
          trimUnderscores (collapseUnderscores ((rustTrim s).map normalizeChar)) from rfl, hm]
        exact hc)
    have hc2 : c ∈ collapseUnderscores ((rustTrim s).map normalizeChar) :=
      (List.dropWhile_sublist _).mem hc3
    rcases List.mem_map.mp (mem_collapseUnderscores hc2) with ⟨x, _, hx⟩
    rw [← hx]; exact normalizeChar_safe x
  have hnd : noDoubleUnderscore (first :: rest) = true := by
    rw [← hm]
    exact noDoubleUnderscore_dropTrailingWhile
      (noDoubleUnderscore_dropWhile (noDoubleUnderscore_collapse _))
  have hhead : (first == '_') = false := by
    have h1 : (trimUnderscores (collapseUnderscores ((rustTrim s).map normalizeChar))).head? =
        some first := by rw [hm]; rfl
    unfold trimUnderscores at h1
    have h2 := dropTrailingWhile_head? h1
    exact dropWhile_head?_not (p := fun c => c == '_') h2
  have hfirst_ne : first ≠ '_' := by
    intro hc; rw [hc] at hhead; simp at hhead
  have hlast : ∀ c, (first :: rest).getLast? = some c → c ≠ '_' := by
    intro c hc
    rw [← hm] at hc
    have h1 := dropTrailingWhile_getLast? hc
    intro h2; rw [h2] at h1; simp at h1
  -- facts about the first prefixing step
  have hpmem : ∀ c ∈ normalizeColumnPrefixed first rest, isSafeChar c = true := by
    intro c hc
    unfold normalizeColumnPrefixed at hc
    by_cases hcond : (isAsciiAlphabetic first || first == '_') = true
    · rw [if_pos hcond] at hc; exact hmem c hc
    · rw [if_neg hcond] at hc
      rcases List.mem_append.mp hc with hc | hc
      · exact mem_colPrefix_safe c hc
      · exact hmem c hc
  have hpnd : noDoubleUnderscore (normalizeColumnPrefixed first rest) = true := by
    unfold normalizeColumnPrefixed
    by_cases hcond : (isAsciiAlphabetic first || first == '_') = true
    · rw [if_pos hcond]; exact hnd
    · rw [if_neg hcond]
      exact noDouble_colPrefix_append
        (fun hh => hfirst_ne (Option.some_inj.mp hh)) hnd
  have hphead : ∀ c, (normalizeColumnPrefixed first rest).head? = some c →
      isAsciiLowercase c = true := by
    intro c hc
    unfold normalizeColumnPrefixed at hc
    by_cases hcond : (isAsciiAlphabetic first || first == '_') = true
    · rw [if_pos hcond] at hc
      have hcf : c = first := Option.some_inj.mp hc.symm
      subst hcf
      rcases Bool.or_eq_true_iff.mp hcond with h1 | h1
      · rcases Bool.or_eq_true_iff.mp (by simpa [isAsciiAlphabetic] using h1) with h2 | h2
        · exact absurd (isSafeChar_not_upper (hmem c (List.mem_cons_self _ _)))
            (by simp [h2])
        · exact h2
      · exact absurd (beq_iff_eq.mp h1) hfirst_ne
    · rw [if_neg hcond, colPrefix_append_head?] at hc
      rw [Option.some_inj.mp hc.symm]; decide
  have hplast : ∀ c, (normalizeColumnPrefixed first rest).getLast? = some c → c ≠ '_' := by
    intro c hc
    unfold normalizeColumnPrefixed at hc
    by_cases hcond : (isAsciiAlphabetic first || first == '_') = true
    · rw [if_pos hcond] at hc; exact hlast c hc
    · rw [if_neg hcond, List.getLast?_append_of_ne_nil _ (by simp)] at hc
      exact hlast c hc
  have hpne : normalizeColumnPrefixed first rest ≠ [] := by
    unfold normalizeColumnPrefixed
    by_cases hcond : (isAsciiAlphabetic first || first == '_') = true
    · rw [if_pos hcond]; simp
    · rw [if_neg hcond]; simp [colPrefix]
  -- the keyword prefixing step
  unfold normalizeColumnFinish at hout
  by_cases hkw : RESERVED_KEYWORDS.contains (normalizeColumnPrefixed first rest) = true
  · rw [if_pos hkw] at hout
    rw [← hout]
    refine ⟨by simp [colPrefix], ?_, ?_, ?_, ?_, contains_colPrefix_append_false _⟩
    · intro c hc
      rcases List.mem_append.mp hc with hc | hc
      · exact mem_colPrefix_safe c hc
      · exact hpmem c hc
    · refine noDouble_colPrefix_append (fun hh => ?_) hpnd
      exact absurd (isAsciiLowercase_iff.mp (hphead _ hh)) (by decide)
    · intro c hc
      rw [colPrefix_append_head?] at hc
      rw [Option.some_inj.mp hc.symm]; decide
    · intro c hc
      rw [List.getLast?_append_of_ne_nil _ hpne] at hc
      exact hplast c hc
  · rw [if_neg hkw] at hout
    rw [← hout]
    exact ⟨hpne, hpmem, hpnd, hphead, hplast, Bool.eq_false_iff.mpr hkw⟩

theorem map_normalizeChar_id {l : List Char} (h : ∀ c ∈ l, isSafeChar c = true) :
    l.map normalizeChar = l := by
  induction l with
  | nil => rfl
  | cons a rest ih =>
    rw [List.map_cons, normalizeChar_id (h a (List.mem_cons_self _ _)),
      ih (fun c hc => h c (List.mem_cons_of_mem a hc))]

theorem lowercase_ne_underscore {c : Char} (h : isAsciiLowercase c = true) : c ≠ '_' := by
  intro hc
  rw [isAsciiLowercase_iff] at h
  rw [eq_underscore_char_iff.mp hc] at h
  omega

/-- C5: every non-null output of the identifier normalizer matches
`[a-z_][a-z0-9_]*`, has no consecutive underscores, no leading or trailing
underscore, and is not a reserved keyword. -/
theorem normalized_identifier_safe (s out : List Char)
    (h : normalize_column_name s = some out) :
    matchesIdentRegex out = true ∧
    noDoubleUnderscore out = true ∧
    out.head? ≠ some '_' ∧
    out.getLast? ≠ some '_' ∧
    out ∉ RESERVED_KEYWORDS := by
  obtain ⟨hne, hmem, hnd, hhead, hlast, hkw⟩ := normalize_column_name_sound h
  rcases hout : out with _ | ⟨first, rest⟩
  · exact absurd hout hne
  subst hout
  have hfl : isAsciiLowercase first = true := hhead first rfl
  refine ⟨?_, hnd, ?_, ?_, ?_⟩
  · rw [matchesIdentRegex, Bool.and_eq_true, Bool.or_eq_true]
    exact ⟨Or.inl hfl, List.all_eq_true.mpr
      (fun c hc => hmem c (List.mem_cons_of_mem first hc))⟩
  · intro hx
    exact lowercase_ne_underscore hfl (Option.some_inj.mp hx)
  · intro hx
    exact hlast '_' hx rfl
  · intro hx
    have h2 : RESERVED_KEYWORDS.contains (first :: rest) = true := List.elem_iff.mpr hx
    rw [hkw] at h2
    exact absurd h2 (by simp)

/-- Witness for C5 at the input `"Hello World!"`. -/
theorem normalized_identifier_safe_witness :
    normalize_column_name ("Hello World!".toList) = some ("hello_world".toList) ∧
    (matchesIdentRegex ("hello_world".toList) = true ∧
     noDoubleUnderscore ("hello_world".toList) = true ∧
     ("hello_world".toList).head? ≠ some '_' ∧
     ("hello_world".toList).getLast? ≠ some '_' ∧
     ("hello_world".toList) ∉ RESERVED_KEYWORDS) :=
  ⟨by decide, normalized_identifier_safe ("Hello World!".toList) ("hello_world".toList)
    (by decide)⟩

/-- C6: the identifier normalizer is idempotent on its non-null outputs
(round-trip law L1). -/
theorem normalize_column_name_idempotent (s out : List Char)
    (h : normalize_column_name s = some out) :
    normalize_column_name out = some out := by
  obtain ⟨hne, hmem, hnd, hhead, hlast, hkw⟩ := normalize_column_name_sound h
  rcases hout : out with _ | ⟨first, rest⟩
  · exact absurd hout hne
  subst hout
  have hfl : isAsciiLowercase first = true := hhead first rfl
  have htrim : rustTrim (first :: rest) = first :: rest := by
    unfold rustTrim
    rw [dropWhile_eq_self (fun c hc => safeChar_not_whitespace
      (hmem c (by rw [← Option.some_inj.mp hc]; exact List.mem_cons_self _ _)))]
    exact dropTrailingWhile_eq_self (fun c hc => safeChar_not_whitespace
      (hmem c (List.mem_of_getLast?_eq_some hc)))
  have hmap : (first :: rest).map normalizeChar = first :: rest :=
    map_normalizeChar_id hmem
  have hcollapse : collapseUnderscores (first :: rest) = first :: rest :=
    collapseUnderscores_id hnd
  have htrimu : trimUnderscores (first :: rest) = first :: rest := by
    unfold trimUnderscores
    rw [dropWhile_eq_self (fun c hc => beq_eq_false_iff_ne.mpr (by
      rw [← Option.some_inj.mp hc]; exact lowercase_ne_underscore hfl))]
    exact dropTrailingWhile_eq_self
      (fun c hc => beq_eq_false_iff_ne.mpr (hlast c hc))
  unfold normalize_column_name
  rw [htrim, if_neg (by simp), hmap, hcollapse, htrimu]
  show some (normalizeColumnFinish first rest) = some (first :: rest)
  have hpre : normalizeColumnPrefixed first rest = first :: rest := by
    unfold normalizeColumnPrefixed
    rw [if_pos]
    rw [Bool.or_eq_true]
    exact Or.inl (by simp [isAsciiAlphabetic, hfl])
  unfold normalizeColumnFinish
  rw [hpre, if_neg (by rw [hkw]; simp)]

/-- Witness for C6 at the input `"Hello World!"`. -/
theorem normalize_column_name_idempotent_witness :
    normalize_column_name ("Hello World!".toList) = some ("hello_world".toList) ∧
    normalize_column_name ("hello_world".toList) = some ("hello_world".toList) :=
  ⟨by decide, normalize_column_name_idempotent ("Hello World!".toList)
    ("hello_world".toList) (by decide)⟩

/-- C7 counterexample: the password `"Abcd 123"` satisfies the claimed
acceptance predicate (the space is a printable ASCII non-alphanumeric), yet
the code rejects it with `MissingSpecial` since the enumerated symbol set
excludes the space. -/
theorem password_claim_counterexample :
    claimPasswordAccepted ("Abcd 123".toList) = true ∧
    validate_password_complexity ("Abcd 123".toList) = .error .MissingSpecial :=
  ⟨by decide, rfl⟩

theorem special_chars_complete : ∀ n, n < 128 →
    (33 ≤ n ∧ n ≤ 126 ∧ ¬(65 ≤ n ∧ n ≤ 90) ∧ ¬(97 ≤ n ∧ n ≤ 122) ∧
      ¬(48 ≤ n ∧ n ≤ 57)) →
    n ∈ SPECIAL_CHARS.map Char.toNat := by decide

theorem alnum_false_ranges {c : Char} (h : isAsciiAlphanumeric c = false) :
    ¬(65 ≤ c.toNat ∧ c.toNat ≤ 90) ∧ ¬(97 ≤ c.toNat ∧ c.toNat ≤ 122) ∧
      ¬(48 ≤ c.toNat ∧ c.toNat ≤ 57) := by
  refine ⟨fun hr => ?_, fun hr => ?_, fun hr => ?_⟩
  · exact absurd h (by simp [isAsciiAlphanumeric, isAsciiAlphabetic,
      isAsciiUppercase_iff.mpr hr])
  · exact absurd h (by simp [isAsciiAlphanumeric, isAsciiAlphabetic,
      isAsciiLowercase_iff.mpr hr])
  · exact absurd h (by simp [isAsciiAlphanumeric, isAsciiDigit_iff.mpr hr])

theorem mem_SPECIAL_CHARS_iff (c : Char) :
    SPECIAL_CHARS.contains c = true ↔
      33 ≤ c.toNat ∧ c.toNat ≤ 126 ∧ isAsciiAlphanumeric c = false := by
  constructor
  · intro h
    have hm := List.elem_iff.mp h
    fin_cases hm <;> exact ⟨by decide, by decide, by decide⟩
  · rintro ⟨h1, h2, h3⟩
    obtain ⟨h4, h5, h6⟩ := alnum_false_ranges h3
    have h7 := special_chars_complete c.toNat (by omega) ⟨h1, h2, h4, h5, h6⟩
    rcases List.mem_map.mp h7 with ⟨x, hx, hxe⟩
    exact List.elem_iff.mpr ((charToNat_inj hxe) ▸ hx)

theorem special_eq_printable_nonspace (c : Char) :
    SPECIAL_CHARS.contains c =
      (isPrintableAscii c && !(isAsciiAlphanumeric c) && !(c == ' ')) := by
  rw [Bool.eq_iff_iff, mem_SPECIAL_CHARS_iff c]
  simp only [Bool.and_eq_true, Bool.not_eq_true', beq_eq_false_iff_ne,
    isPrintableAscii, decide_eq_true_eq]
  constructor
  · rintro ⟨h1, h2, h3⟩
    refine ⟨⟨⟨by omega, by omega⟩, h3⟩, ?_⟩
    intro hc; rw [hc] at h1; exact absurd h1 (by decide)
  · rintro ⟨⟨⟨h1, h2⟩, h3⟩, h4⟩
    refine ⟨?_, h2, h3⟩
    rcases Nat.lt_or_ge c.toNat 33 with h5 | h5
    · have h32 : c.toNat = 32 := by omega
      exact absurd (show c = ' ' from charToNat_inj h32) h4
    · exact h5

theorem special_lambda_eq :
    (fun c => SPECIAL_CHARS.contains c) =
      (fun c => isPrintableAscii c && !(isAsciiAlphanumeric c) && !(c == ' ')) :=
  funext special_eq_printable_nonspace

theorem vpc_too_short {p : List Char} (h : utf8Length p < 8) :
    validate_password_complexity p = .error .TooShort := by
  unfold validate_password_complexity PASSWORD_MIN_LENGTH
  rw [if_pos h]

theorem vpc_too_long {p : List Char} (_h1 : 8 ≤ utf8Length p) (h2 : 128 < utf8Length p) :
    validate_password_complexity p = .error .TooLong := by
  unfold validate_password_complexity PASSWORD_MIN_LENGTH PASSWORD_MAX_LENGTH
  rw [if_neg (by omega), if_pos h2]

theorem vpc_missing_upper {p : List Char} (h1 : 8 ≤ utf8Length p)
    (h2 : utf8Length p ≤ 128) (h3 : p.any isAsciiUppercase = false) :
    validate_password_complexity p = .error .MissingUppercase := by
  unfold validate_password_complexity PASSWORD_MIN_LENGTH PASSWORD_MAX_LENGTH
  rw [if_neg (by omega), if_neg (by omega), if_pos (by simp [h3])]

theorem vpc_missing_lower {p : List Char} (h1 : 8 ≤ utf8Length p)
    (h2 : utf8Length p ≤ 128) (h3 : p.any isAsciiUppercase = true)
    (h4 : p.any isAsciiLowercase = false) :
    validate_password_complexity p = .error .MissingLowercase := by
  unfold validate_password_complexity PASSWORD_MIN_LENGTH PASSWORD_MAX_LENGTH
  rw [if_neg (by omega), if_neg (by omega), if_neg (by simp [h3]), if_pos (by simp [h4])]

theorem vpc_missing_digit {p : List Char} (h1 : 8 ≤ utf8Length p)
    (h2 : utf8Length p ≤ 128) (h3 : p.any isAsciiUppercase = true)
    (h4 : p.any isAsciiLowercase = true) (h5 : p.any isAsciiDigit = false) :
    validate_password_complexity p = .error .MissingDigit := by
  unfold validate_password_complexity PASSWORD_MIN_LENGTH PASSWORD_MAX_LENGTH
  rw [if_neg (by omega), if_neg (by omega), if_neg (by simp [h3]), if_neg (by simp [h4]),
    if_pos (by simp [h5])]

theorem vpc_missing_special {p : List Char} (h1 : 8 ≤ utf8Length p)
    (h2 : utf8Length p ≤ 128) (h3 : p.any isAsciiUppercase = true)
    (h4 : p.any isAsciiLowercase = true) (h5 : p.any isAsciiDigit = true)
    (h6 : p.any (fun c => SPECIAL_CHARS.contains c) = false) :
    validate_password_complexity p = .error .MissingSpecial := by
  unfold validate_password_complexity PASSWORD_MIN_LENGTH PASSWORD_MAX_LENGTH
  rw [if_neg (by omega), if_neg (by omega), if_neg (by simp [h3]), if_neg (by simp [h4]),
    if_neg (by simp [h5]), if_pos (by rw [h6]; rfl)]

theorem vpc_ok_iff (p : List Char) :
    validate_password_complexity p = .ok () ↔
      (8 ≤ utf8Length p ∧ utf8Length p ≤ 128 ∧
       p.any isAsciiUppercase = true ∧ p.any isAsciiLowercase = true ∧
       p.any isAsciiDigit = true ∧
       p.any (fun c => isPrintableAscii c && !(isAsciiAlphanumeric c) && !(c == ' ')) = true) := by
  constructor
  · intro hok
    unfold validate_password_complexity PASSWORD_MIN_LENGTH PASSWORD_MAX_LENGTH at hok
    split_ifs at hok with h1 h2 h3 h4 h5 h6
    refine ⟨by omega, by omega, by simpa using h3, by simpa using h4,
      by simpa using h5, ?_⟩
    rw [← special_lambda_eq]
    simpa using h6
  · rintro ⟨h1, h2, h3, h4, h5, h6⟩
    unfold validate_password_complexity PASSWORD_MIN_LENGTH PASSWORD_MAX_LENGTH
    rw [if_neg (by omega), if_neg (by omega), if_neg (by simp [h3]), if_neg (by simp [h4]),
      if_neg (by simp [h5]), if_neg (by rw [special_lambda_eq]; simp [h6])]

/-- C7 (amended): password validation succeeds iff the UTF-8 byte length is
between 8 and 128 inclusive and the password contains at least one uppercase
letter, one lowercase letter, one decimal digit, and one printable ASCII
non-alphanumeric character other than the space (the enumerated symbol set
is exactly the printable ASCII non-alphanumerics minus the space); each
violated requirement produces its own distinct error, checked in the order
length, uppercase, lowercase, digit, symbol. -/
theorem validate_password_complexity_spec (p : List Char) :
    (validate_password_complexity p = .ok () ↔
      (8 ≤ utf8Length p ∧ utf8Length p ≤ 128 ∧
       p.any isAsciiUppercase = true ∧ p.any isAsciiLowercase = true ∧
       p.any isAsciiDigit = true ∧
       p.any (fun c => isPrintableAscii c && !(isAsciiAlphanumeric c) && !(c == ' ')) = true)) ∧
    (utf8Length p < 8 → validate_password_complexity p = .error .TooShort) ∧
    (8 ≤ utf8Length p → 128 < utf8Length p →
      validate_password_complexity p = .error .TooLong) ∧
    (8 ≤ utf8Length p → utf8Length p ≤ 128 → p.any isAsciiUppercase = false →
      validate_password_complexity p = .error .MissingUppercase) ∧
    (8 ≤ utf8Length p → utf8Length p ≤ 128 → p.any isAsciiUppercase = true →
      p.any isAsciiLowercase = false →
      validate_password_complexity p = .error .MissingLowercase) ∧
    (8 ≤ utf8Length p → utf8Length p ≤ 128 → p.any isAsciiUppercase = true →
      p.any isAsciiLowercase = true → p.any isAsciiDigit = false →
      validate_password_complexity p = .error .MissingDigit) ∧
    (8 ≤ utf8Length p → utf8Length p ≤ 128 → p.any isAsciiUppercase = true →
      p.any isAsciiLowercase = true → p.any isAsciiDigit = true →
      p.any (fun c => SPECIAL_CHARS.contains c) = false →
      validate_password_complexity p = .error .MissingSpecial) :=
  ⟨vpc_ok_iff p, vpc_too_short, vpc_too_long, vpc_missing_upper, vpc_missing_lower,
   vpc_missing_digit, vpc_missing_special⟩

/-- Witness for C7 (amended): `"Test123!@#"` passes, and `"Abcd 123"` is
rejected with `MissingSpecial` via the theorem. -/
theorem validate_password_complexity_spec_witness :
    validate_password_complexity ("Test123!@#".toList) = .ok () ∧
    validate_password_complexity ("Abcd 123".toList) = .error .MissingSpecial :=
  ⟨rfl, (validate_password_complexity_spec ("Abcd 123".toList)).2.2.2.2.2.2
    (by decide) (by decide) (by decide) (by decide) (by decide) (by decide)⟩

/-! ## Claim theorems: reconciler and tile coordinates -/

theorem reconcileFile_idem (f : FileRec) : reconcileFile (reconcileFile f) = reconcileFile f := by
  unfold reconcileFile
  by_cases h : f.status = "processing"
  · rw [if_pos h]
    simp
  · rw [if_neg h, if_neg h]

/-- C9: the startup reconciler sets every `processing` File Record to
`failed` with exactly the message "Server restarted during processing",
leaves every other record unchanged, leaves no record in `processing`,
and running it twice equals running it once. -/
theorem reconcile_processing_files_spec (files : List FileRec) :
    (∀ (i : Nat) (f : FileRec), files[i]? = some f → f.status = "processing" →
      (reconcile_processing_files files)[i]? =
        some { f with status := "failed",
                      error := some PROCESSING_RECONCILIATION_ERROR }) ∧
    (∀ (i : Nat) (f : FileRec), files[i]? = some f → f.status ≠ "processing" →
      (reconcile_processing_files files)[i]? = some f) ∧
    (∀ f ∈ reconcile_processing_files files, f.status ≠ "processing") ∧
    reconcile_processing_files (reconcile_processing_files files) =
      reconcile_processing_files files := by
  refine ⟨?_, ?_, ?_, ?_⟩
  · intro i f hf hp
    rw [reconcile_processing_files, List.getElem?_map, hf]
    simp [reconcileFile, hp]
  · intro i f hf hp
    rw [reconcile_processing_files, List.getElem?_map, hf]
    simp [reconcileFile, hp]
  · intro f hf
    rcases List.mem_map.mp hf with ⟨g, _, hge⟩
    rw [← hge]
    unfold reconcileFile
    by_cases hp : g.status = "processing"
    · rw [if_pos hp]; simp
    · rw [if_neg hp]; exact hp
  · simp only [reconcile_processing_files, List.map_map]
    exact List.map_congr_left (fun f _ => reconcileFile_idem f)

/-- Witness for C9 on a two-row catalog. -/
theorem reconcile_processing_files_spec_witness :
    (reconcile_processing_files
      [⟨"a", "processing", none, none, none, false⟩,
       ⟨"b", "ready", none, some "t", none, true⟩])[0]? =
      some ⟨"a", "failed", none, none, some PROCESSING_RECONCILIATION_ERROR, false⟩ ∧
    (reconcile_processing_files
      [⟨"a", "processing", none, none, none, false⟩,
       ⟨"b", "ready", none, some "t", none, true⟩])[1]? =
      some ⟨"b", "ready", none, some "t", none, true⟩ ∧
    reconcile_processing_files (reconcile_processing_files
      [⟨"a", "processing", none, none, none, false⟩,
       ⟨"b", "ready", none, some "t", none, true⟩]) =
      reconcile_processing_files
      [⟨"a", "processing", none, none, none, false⟩,
       ⟨"b", "ready", none, some "t", none, true⟩] :=
  ⟨(reconcile_processing_files_spec _).1 0 ⟨"a", "processing", none, none, none, false⟩
      rfl rfl,
   (reconcile_processing_files_spec _).2.1 1 ⟨"b", "ready", none, some "t", none, true⟩
      rfl (by decide),
   (reconcile_processing_files_spec _).2.2.2⟩

/-- C4: tile coordinate validation accepts (z, x, y) iff 0 ≤ z ≤ 22,
0 ≤ x < 2^z and 0 ≤ y < 2^z, and any rejected triple makes the tile
endpoint answer InvalidTileCoords no matter what the catalog holds and
before any query outcome is consulted. -/
theorem validate_tile_coords_spec (z x y : Int) :
    (validate_tile_coords z x y = .ok () ↔
      (0 ≤ z ∧ z ≤ 22 ∧ 0 ≤ x ∧ x < 2 ^ z.toNat ∧ 0 ≤ y ∧ y < 2 ^ z.toNat)) ∧
    (validate_tile_coords z x y ≠ .ok () →
      ∀ files id q, get_tile files id z x y q =
        .error (400, "Invalid tile coordinates")) := by
  constructor
  · simp only [validate_tile_coords, MAX_Z, bad_request]
    split_ifs with h1 h2
    · constructor
      · intro h; exact absurd h (by simp)
      · intro hr; exfalso; omega
    · constructor
      · intro h; exact absurd h (by simp)
      · intro hr; exfalso; omega
    · constructor
      · intro _; omega
      · intro _; rfl
  · intro hne files id q
    unfold get_tile
    rcases hv : validate_tile_coords z x y with e | u
    · have he : e = (400, "Invalid tile coordinates") := by
        simp only [validate_tile_coords, MAX_Z, bad_request] at hv
        split_ifs at hv with h1 h2
        · exact (Except.error.inj hv).symm
        · exact (Except.error.inj hv).symm
      rw [he]
    · cases u
      exact absurd hv hne

/-- Witness for C4 at the rejected triple (1, 0, 2) and an accepted check. -/
theorem validate_tile_coords_spec_witness :
    (validate_tile_coords 1 0 1 = .ok () ↔
      (0 ≤ (1 : Int) ∧ (1 : Int) ≤ 22 ∧ 0 ≤ (0 : Int) ∧ (0 : Int) < 2 ^ (1 : Int).toNat ∧
       0 ≤ (1 : Int) ∧ (1 : Int) < 2 ^ (1 : Int).toNat)) ∧
    get_tile [] "nope" 1 0 2 .qnull = .error (400, "Invalid tile coordinates") :=
  ⟨(validate_tile_coords_spec 1 0 1).1,
   (validate_tile_coords_spec 1 0 2).2 (by decide) [] "nope" .qnull⟩

/-- C2: on a ready file the tile endpoint turns a NULL query blob into the
TileGenerationFailed internal error, because the byte-vector decoder inside
`query_row` rejects SQL NULL; an empty blob yields the empty success
response and an execution failure yields TileGenerationFailed.  The claim
(and the spec) say a NULL blob should also yield the empty success
response. -/
theorem get_tile_null_blob_is_failure :
    get_tile [⟨"f1", "ready", none, some "layer_f1", none, false⟩] "f1" 0 0 0 .qnull =
      .error (500, "Tile generation failed: InvalidColumnType") ∧
    get_tile [⟨"f1", "ready", none, some "layer_f1", none, false⟩] "f1" 0 0 0 (.qblob []) =
      .ok ⟨MVT_CONTENT_TYPE, none, []⟩ ∧
    get_tile [⟨"f1", "ready", none, some "layer_f1", none, false⟩] "f1" 0 0 0
        (.qerror "boom") =
      .error (500, "Tile generation failed: boom") :=
  ⟨rfl, rfl, rfl⟩

/-! ## Claim theorems: public tile lookup -/

/-- C3 counterexample: with a Published Registration whose File Record is
not flagged public, the public tile endpoint answers 404 "File not found",
while a nonexistent slug answers 404 "Public tile not found" — the two
failures carry different error bodies, so they are distinguishable. -/
theorem get_public_tile_error_counterexample :
    get_public_tile ⟨[⟨"f1", "ready", none, some "t", none, false⟩], [⟨"f1", "s"⟩]⟩
        "s" 0 0 0 (.qblob [1]) = .error (404, "File not found") ∧
    get_public_tile ⟨[⟨"f1", "ready", none, some "t", none, false⟩], [⟨"f1", "s"⟩]⟩
        "other" 0 0 0 (.qblob [1]) = .error (404, "Public tile not found") ∧
    ((404, "File not found") : Nat × String) ≠ (404, "Public tile not found") :=
  ⟨rfl, rfl, by decide⟩

/-- C3 (amended): for valid coordinates, a slug with no registration fails
with 404 "Public tile not found", and a registration whose File Record is
missing or not flagged public fails with 404 "File not found"; both are
404s, but the bodies differ, so only the status code is
indistinguishable. -/
theorem get_public_tile_lookup_spec (c : Catalog) (slug : String) (z x y : Int)
    (q : QueryOutcome) (hv : validate_tile_coords z x y = .ok ()) :
    (c.published.find? (fun r => r.slug == slug) = none →
      get_public_tile c slug z x y q = .error (404, "Public tile not found")) ∧
    (∀ reg : PubReg, c.published.find? (fun r => r.slug == slug) = some reg →
      c.files.find? (fun f => f.id == reg.file_id && f.is_public) = none →
      get_public_tile c slug z x y q = .error (404, "File not found")) := by
  constructor
  · intro hs
    unfold get_public_tile
    simp only [hv, hs]
  · intro reg hs hf
    unfold get_public_tile
    simp only [hv, hs, hf]

/-- Witness for C3 (amended): both failure paths on a concrete catalog. -/
theorem get_public_tile_lookup_spec_witness :
    get_public_tile ⟨[⟨"f1", "ready", none, some "t", none, false⟩], [⟨"f1", "s"⟩]⟩
        "other" 1 1 1 (.qblob [1]) = .error (404, "Public tile not found") ∧
    get_public_tile ⟨[⟨"f1", "ready", none, some "t", none, false⟩], [⟨"f1", "s"⟩]⟩
        "s" 1 1 1 (.qblob [1]) = .error (404, "File not found") :=
  ⟨(get_public_tile_lookup_spec ⟨[⟨"f1", "ready", none, some "t", none, false⟩],
      [⟨"f1", "s"⟩]⟩ "other" 1 1 1 (.qblob [1]) (by decide)).1 (by decide),
   (get_public_tile_lookup_spec ⟨[⟨"f1", "ready", none, some "t", none, false⟩],
      [⟨"f1", "s"⟩]⟩ "s" 1 1 1 (.qblob [1]) (by decide)).2 ⟨"f1", "s"⟩
      (by decide) (by decide)⟩

/-! ## Claim theorems: publication registry -/

theorem setPublic_cons (f : FileRec) (rest : List FileRec) (id : String) (b : Bool) :
    setPublic (f :: rest) id b =
      (if (f.id == id) = true then { f with is_public := b } else f) :: setPublic rest id b :=
  rfl

theorem findFile_setPublic (files : List FileRec) (id : String) (b : Bool) :
    findFile (setPublic files id b) id =
      (findFile files id).map (fun f => { f with is_public := b }) := by
  induction files with
  | nil => rfl
  | cons f rest ih =>
    rw [setPublic_cons]
    by_cases h : (f.id == id) = true
    · rw [if_pos h]
      have e1 : findFile ({ f with is_public := b } :: setPublic rest id b) id =
          some { f with is_public := b } :=
        List.find?_cons_of_pos (p := fun g : FileRec => g.id == id) _ h
      have e2 : findFile (f :: rest) id = some f :=
        List.find?_cons_of_pos (p := fun g : FileRec => g.id == id) _ h
      rw [e1, e2]
      rfl
    · rw [if_neg h]
      have e1 : findFile (f :: setPublic rest id b) id = findFile (setPublic rest id b) id :=
        List.find?_cons_of_neg (p := fun g : FileRec => g.id == id) _ (by simp [h])
      have e2 : findFile (f :: rest) id = findFile rest id :=
        List.find?_cons_of_neg (p := fun g : FileRec => g.id == id) _ (by simp [h])
      rw [e1, e2]
      exact ih

theorem setPublic_setPublic (files : List FileRec) (id : String) (b1 b2 : Bool) :
    setPublic (setPublic files id b1) id b2 = setPublic files id b2 := by
  induction files with
  | nil => rfl
  | cons f rest ih =>
    rw [setPublic_cons (b := b1)]
    by_cases h : (f.id == id) = true
    · rw [if_pos h, setPublic_cons, setPublic_cons, if_pos h, ih,
        if_pos (show (({ f with is_public := b1 } : FileRec).id == id) = true from h)]
    · rw [if_neg h, setPublic_cons, setPublic_cons, if_neg h, ih]

theorem publish_file_ok {c : Catalog} {id : String} {f : FileRec} {slug : String}
    (hf : findFile c.files id = some f) (hready : f.status = "ready")
    (hnoreg : ∀ r ∈ c.published, r.file_id ≠ id)
    (hnoslug : ∀ r ∈ c.published, r.slug ≠ slug)
    (hslugok : validate_slug slug = .ok slug) :
    publish_file c id (some slug) =
      (.ok ⟨publicUrlTemplate slug, slug, true⟩,
       ⟨setPublic c.files id true, c.published ++ [⟨id, slug⟩]⟩) := by
  have hany1 : (c.published.any fun r => r.file_id == id) = false :=
    List.any_eq_false.mpr (fun r hr => by simpa using hnoreg r hr)
  have hany2 : (c.published.any fun r => r.slug == slug) = false :=
    List.any_eq_false.mpr (fun r hr => by simpa using hnoslug r hr)
  unfold publish_file
  simp only [hf, Option.getD_some, hslugok, hready, hany1, hany2, ne_eq,
    not_true_eq_false, if_false, Bool.false_eq_true]

/-- C1: the DELETE statement of unpublish_file is not in DuckDB's DELETE
grammar (a JOIN clause is not admitted there, only USING), so conn.execute
fails at parse time and every unpublish request returns 500 with the
catalog unchanged: the claimed NotPublished error, the registration
deletion, the clearing of is_public, and the publish-unpublish-publish
cycle of law L2 are all unreachable. -/
theorem unpublish_always_internal_error :
    duckdbDeleteShape (sqlTokens UNPUBLISH_DELETE_SQL) = false ∧
    ∀ (c : Catalog) (id : String),
      unpublish_file c id =
        (.error (500, "Parser Error: syntax error at or near JOIN"), c) := by
  have hshape : duckdbDeleteShape (sqlTokens UNPUBLISH_DELETE_SQL) = false := by decide
  refine ⟨hshape, fun c id => ?_⟩
  simp only [unpublish_file, unpublishDeleteExec, hshape, Bool.false_eq_true,
    if_false, internal_error]

/-- C8: a wrong password and an unknown username return the same
InvalidCredentials value; the unknown-user path performs a bcrypt
verification against the process-global dummy hash, storing it at the first
unknown-user authentication (known-user calls never touch the cell) and
reusing the same hash on later unknown-user calls. -/
theorem authenticate_spec (verify : String → String → Except String Bool)
    (hashPassword : String → Except String String)
    (users : List AuthUser) (cell : Option String)
    (u1 p1 u2 p2 u3 p3 : String) (user : AuthUser) :
    (users.find? (fun u => u.username == u1) = some user →
      verify p1 user.password_hash = .ok false →
      (authenticate verify hashPassword users cell u1 p1).result =
        .error .InvalidCredentials ∧
      (authenticate verify hashPassword users cell u1 p1).dummyCell = cell) ∧
    (users.find? (fun u => u.username == u2) = none →
      (authenticate verify hashPassword users cell u2 p2).result =
        .error .InvalidCredentials ∧
      (authenticate verify hashPassword users cell u2 p2).verifyCalls =
        [(p2, dummyHashOf hashPassword cell)] ∧
      (authenticate verify hashPassword users cell u2 p2).dummyCell =
        some (dummyHashOf hashPassword cell)) ∧
    (users.find? (fun u => u.username == u2) = none →
      users.find? (fun u => u.username == u3) = none →
      (authenticate verify hashPassword users
          (authenticate verify hashPassword users cell u2 p2).dummyCell u3 p3).verifyCalls =
        [(p3, dummyHashOf hashPassword cell)] ∧
      (authenticate verify hashPassword users
          (authenticate verify hashPassword users cell u2 p2).dummyCell u3 p3).dummyCell =
        some (dummyHashOf hashPassword cell)) ∧
    (users.find? (fun u => u.username == u1) = some user →
      verify p1 user.password_hash = .ok false →
      users.find? (fun u => u.username == u2) = none →
      (authenticate verify hashPassword users cell u1 p1).result =
        (authenticate verify hashPassword users cell u2 p2).result) := by
  have hknown : ∀ hu : users.find? (fun u => u.username == u1) = some user,
      verify p1 user.password_hash = .ok false →
      authenticate verify hashPassword users cell u1 p1 =
        ⟨.error .InvalidCredentials, cell, [(p1, user.password_hash)]⟩ := by
    intro hu hv
    unfold authenticate
    simp only [hu, hv]
  have hunknown : ∀ hu : users.find? (fun u => u.username == u2) = none,
      authenticate verify hashPassword users cell u2 p2 =
        ⟨.error .InvalidCredentials, some (dummyHashOf hashPassword cell),
         [(p2, dummyHashOf hashPassword cell)]⟩ := by
    intro hu
    unfold authenticate dummyHashOf
    simp only [hu]
  refine ⟨fun hu hv => ?_, fun hu => ?_, fun hu2 hu3 => ?_, fun hu hv hu2 => ?_⟩
  · rw [hknown hu hv]
    exact ⟨rfl, rfl⟩
  · rw [hunknown hu]
    exact ⟨rfl, rfl, rfl⟩
  · rw [hunknown hu2]
    have hu3b : authenticate verify hashPassword users
        (some (dummyHashOf hashPassword cell)) u3 p3 =
        ⟨.error .InvalidCredentials, some (dummyHashOf hashPassword cell),
         [(p3, dummyHashOf hashPassword cell)]⟩ := by
      unfold authenticate
      simp only [hu3]
      rfl
    rw [show (⟨.error .InvalidCredentials, some (dummyHashOf hashPassword cell),
        [(p2, dummyHashOf hashPassword cell)]⟩ : AuthOutcome).dummyCell =
        some (dummyHashOf hashPassword cell) from rfl, hu3b]
    exact ⟨rfl, rfl⟩
  · rw [hknown hu hv, hunknown hu2]

/-- Witness for C8 with a one-user store and a rejecting bcrypt stub. -/
theorem authenticate_spec_witness :
    ((authenticate (fun _ _ => .ok false) (fun _ => .ok "STUBHASH")
        [⟨"id1", "alice", "REALHASH", "admin"⟩] none "alice" "wrongpw").result =
      .error .InvalidCredentials ∧
     (authenticate (fun _ _ => .ok false) (fun _ => .ok "STUBHASH")
        [⟨"id1", "alice", "REALHASH", "admin"⟩] none "alice" "wrongpw").dummyCell = none) ∧
    ((authenticate (fun _ _ => .ok false) (fun _ => .ok "STUBHASH")
        [⟨"id1", "alice", "REALHASH", "admin"⟩] none "nobody" "pw").result =
      .error .InvalidCredentials ∧
     (authenticate (fun _ _ => .ok false) (fun _ => .ok "STUBHASH")
        [⟨"id1", "alice", "REALHASH", "admin"⟩] none "nobody" "pw").verifyCalls =
      [("pw", dummyHashOf (fun _ => .ok "STUBHASH") none)] ∧
     (authenticate (fun _ _ => .ok false) (fun _ => .ok "STUBHASH")
        [⟨"id1", "alice", "REALHASH", "admin"⟩] none "nobody" "pw").dummyCell =
      some (dummyHashOf (fun _ => .ok "STUBHASH") none)) ∧
    (authenticate (fun _ _ => .ok false) (fun _ => .ok "STUBHASH")
        [⟨"id1", "alice", "REALHASH", "admin"⟩] none "alice" "wrongpw").result =
      (authenticate (fun _ _ => .ok false) (fun _ => .ok "STUBHASH")
        [⟨"id1", "alice", "REALHASH", "admin"⟩] none "nobody" "pw").result :=
  ⟨(authenticate_spec (fun _ _ => .ok false) (fun _ => .ok "STUBHASH")
      [⟨"id1", "alice", "REALHASH", "admin"⟩] none "alice" "wrongpw" "nobody" "pw"
      "x" "y" ⟨"id1", "alice", "REALHASH", "admin"⟩).1 (by decide) rfl,
   (authenticate_spec (fun _ _ => .ok false) (fun _ => .ok "STUBHASH")
      [⟨"id1", "alice", "REALHASH", "admin"⟩] none "alice" "wrongpw" "nobody" "pw"
      "x" "y" ⟨"id1", "alice", "REALHASH", "admin"⟩).2.1 (by decide),
   (authenticate_spec (fun _ _ => .ok false) (fun _ => .ok "STUBHASH")
      [⟨"id1", "alice", "REALHASH", "admin"⟩] none "alice" "wrongpw" "nobody" "pw"
      "x" "y" ⟨"id1", "alice", "REALHASH", "admin"⟩).2.2.2 (by decide) rfl (by decide)⟩

theorem process_property_column_reserved {st : ImportColumnState} {name : List Char}
    {dt : String} {ord : Int} (h : isReservedColumnName name) :
    process_property_column st name dt ord =
      { st with used := name.map toAsciiLowercase :: st.used } := by
  have hres : (name.map toAsciiLowercase == "fid".toList ||
      name.map toAsciiLowercase == "geom".toList) = true := by
    rcases h with h | h <;> simp [h]
  unfold process_property_column
  simp only [hres, if_true]

theorem process_property_column_new (st : ImportColumnState) (name : List Char)
    (dt : String) (ord : Int) (h : ¬isReservedColumnName name) :
    (∀ row ∈ (process_property_column st name dt ord).metadata,
      row ∈ st.metadata ∨ row.original_name = name) ∧
    (∀ rn ∈ (process_property_column st name dt ord).renames,
      rn ∈ st.renames ∨ rn.1 = name) := by
  have hres : (name.map toAsciiLowercase == "fid".toList ||
      name.map toAsciiLowercase == "geom".toList) = false := by
    rcases Bool.eq_false_or_eq_true (name.map toAsciiLowercase == "fid".toList ||
        name.map toAsciiLowercase == "geom".toList) with h2 | h2
    · exfalso
      apply h
      rcases Bool.or_eq_true_iff.mp h2 with h3 | h3
      · exact Or.inl (beq_iff_eq.mp h3)
      · exact Or.inr (beq_iff_eq.mp h3)
    · exact h2
  unfold process_property_column
  simp only [hres, Bool.false_eq_true, if_false]
  constructor
  · intro row hrow
    rcases List.mem_append.mp hrow with h1 | h1
    · exact Or.inl h1
    · exact Or.inr (by rw [List.mem_singleton.mp h1])
  · intro rn hrn
    repeat' split at hrn
    all_goals first
      | exact Or.inl hrn
      | (rcases List.mem_append.mp hrn with h1 | h1
         exacts [Or.inl h1, Or.inr (by rw [List.mem_singleton.mp h1])])

theorem process_property_columns_invariant (cols : List (List Char × String × Int))
    (st : ImportColumnState)
    (hm : ∀ row ∈ st.metadata, ¬isReservedColumnName row.original_name)
    (hr : ∀ rn ∈ st.renames, ¬isReservedColumnName rn.1) :
    (∀ row ∈ (cols.foldl (fun st col => process_property_column st col.1 col.2.1 col.2.2)
        st).metadata, ¬isReservedColumnName row.original_name) ∧
    (∀ rn ∈ (cols.foldl (fun st col => process_property_column st col.1 col.2.1 col.2.2)
        st).renames, ¬isReservedColumnName rn.1) := by
  induction cols generalizing st with
  | nil => exact ⟨hm, hr⟩
  | cons col rest ih =>
    rw [List.foldl_cons]
    by_cases h : isReservedColumnName col.1
    · rw [process_property_column_reserved h]
      exact ih _ hm hr
    · obtain ⟨h1, h2⟩ := process_property_column_new st col.1 col.2.1 col.2.2 h
      apply ih
      · intro row hrow
        rcases h1 row hrow with h3 | h3
        · exact hm row h3
        · rw [h3]; exact h
      · intro rn hrn
        rcases h2 rn hrn with h3 | h3
        · exact hr rn h3
        · rw [h3]; exact h

/-- C10: a column whose lowercased name is `fid` or `geom` is treated as
reserved regardless of its declared data type: its loop iteration only adds
the lowercased name to the used set and emits no rename, no type coercion
and no Dataset Column Metadata row; consequently, over any column list, no
recorded metadata row and no rename refers to a reserved-named column, so a
property column literally named FID is absent from the column metadata and
hence from the tile properties. -/
theorem reserved_columns_spec :
    (∀ (st : ImportColumnState) (name : List Char) (dt : String) (ord : Int),
      isReservedColumnName name →
      process_property_column st name dt ord =
        { st with used := name.map toAsciiLowercase :: st.used }) ∧
    (∀ cols : List (List Char × String × Int),
      (∀ row ∈ (process_property_columns cols).metadata,
        ¬isReservedColumnName row.original_name) ∧
      (∀ rn ∈ (process_property_columns cols).renames,
        ¬isReservedColumnName rn.1)) :=
  ⟨fun _ _ _ _ h => process_property_column_reserved h,
   fun cols => process_property_columns_invariant cols ⟨["fid".toList], [], [], []⟩
     (fun _ h => absurd h (List.not_mem_nil _))
     (fun _ h => absurd h (List.not_mem_nil _))⟩

/-- Witness for C10: a VARCHAR column literally named FID contributes
nothing but a used-set entry, and the metadata of a two-column run holds
only the non-reserved column. -/
theorem reserved_columns_spec_witness :
    process_property_column ⟨["fid".toList], [], [], []⟩ ("FID".toList) "VARCHAR" 1 =
      ⟨["fid".toList, "fid".toList], [], [], []⟩ ∧
    ¬isReservedColumnName
      ((⟨"name".toList, "Name".toList, 2, "VARCHAR"⟩ : DatasetColumnRow).original_name) :=
  ⟨(reserved_columns_spec).1 ⟨["fid".toList], [], [], []⟩ ("FID".toList) "VARCHAR" 1
      (by unfold isReservedColumnName; decide),
   ((reserved_columns_spec).2
      [("FID".toList, "VARCHAR", 1), ("Name".toList, "VARCHAR", 2)]).1
      ⟨"name".toList, "Name".toList, 2, "VARCHAR"⟩ (by decide)⟩

end Mapflow
